import Mathlib

/-!
Verification of the change-extraction engine in `src/tfsec/parse.py`.

The engine consists of two functions:

* `extract_changes(resource_change)` — given the `change` record of a single
  resource (a parsed JSON value), returns a mapping from attribute name to
  `{"before": ..., "after": ...}` pairs for every attribute whose value
  differs between the `before` and `after` snapshots, or `None` when there
  is no difference (or when the action list contains `"no-op"`).
* `create_resource_changes_dict(json_plan)` — folds `extract_changes` over
  `json_plan["resource_changes"]` and builds the output dictionary keyed by
  resource address.

The embedding models parsed JSON values (the result of Python's
`json.loads`) as the inductive type `JSON`; Python `dict`s appear as
association lists with distinct keys, in insertion order.  Python value
equality (`==`/`!=`) is modelled by `pyEq`: Python compares dictionaries by
key set (order-insensitively) and identifies `True`/`False` with the
numbers `1`/`0` (`bool` is a subclass of `int`), so `pyEq` compares
canonical forms in which booleans are turned into numbers and object keys
are sorted.  Operations that can raise in Python (`KeyError` on `d[k]`,
`AttributeError` on `x.get` for non-dicts, `TypeError` on `in` over a
non-container) return `Except PyErr`.
-/

/-- A parsed JSON value, as produced by `json.loads`: `null` is Python
`None`, objects are Python `dict`s with string keys in insertion order. -/
inductive JSON where
  | null : JSON
  | bool (b : Bool) : JSON
  | num (n : Int) : JSON
  | str (s : String) : JSON
  | arr (elems : List JSON) : JSON
  | obj (kvs : List (String × JSON)) : JSON
  deriving Repr

mutual
def jsonDecEq : (a b : JSON) → Decidable (a = b)
  | .null, .null => .isTrue rfl
  | .null, .bool _ => .isFalse (fun h => JSON.noConfusion h)
  | .null, .num _ => .isFalse (fun h => JSON.noConfusion h)
  | .null, .str _ => .isFalse (fun h => JSON.noConfusion h)
  | .null, .arr _ => .isFalse (fun h => JSON.noConfusion h)
  | .null, .obj _ => .isFalse (fun h => JSON.noConfusion h)
  | .bool _, .null => .isFalse (fun h => JSON.noConfusion h)
  | .bool a, .bool b =>
    match instDecidableEqBool a b with
    | .isTrue h => .isTrue (h ▸ rfl)
    | .isFalse h => .isFalse (fun hh => h (JSON.bool.inj hh))
  | .bool _, .num _ => .isFalse (fun h => JSON.noConfusion h)
  | .bool _, .str _ => .isFalse (fun h => JSON.noConfusion h)
  | .bool _, .arr _ => .isFalse (fun h => JSON.noConfusion h)
  | .bool _, .obj _ => .isFalse (fun h => JSON.noConfusion h)
  | .num _, .null => .isFalse (fun h => JSON.noConfusion h)
  | .num _, .bool _ => .isFalse (fun h => JSON.noConfusion h)
  | .num a, .num b =>
    match Int.instDecidableEq a b with
    | .isTrue h => .isTrue (h ▸ rfl)
    | .isFalse h => .isFalse (fun hh => h (JSON.num.inj hh))
  | .num _, .str _ => .isFalse (fun h => JSON.noConfusion h)
  | .num _, .arr _ => .isFalse (fun h => JSON.noConfusion h)
  | .num _, .obj _ => .isFalse (fun h => JSON.noConfusion h)
  | .str _, .null => .isFalse (fun h => JSON.noConfusion h)
  | .str _, .bool _ => .isFalse (fun h => JSON.noConfusion h)
  | .str _, .num _ => .isFalse (fun h => JSON.noConfusion h)
  | .str a, .str b =>
    match String.decEq a b with
    | .isTrue h => .isTrue (h ▸ rfl)
    | .isFalse h => .isFalse (fun hh => h (JSON.str.inj hh))
  | .str _, .arr _ => .isFalse (fun h => JSON.noConfusion h)
  | .str _, .obj _ => .isFalse (fun h => JSON.noConfusion h)
  | .arr _, .null => .isFalse (fun h => JSON.noConfusion h)
  | .arr _, .bool _ => .isFalse (fun h => JSON.noConfusion h)
  | .arr _, .num _ => .isFalse (fun h => JSON.noConfusion h)
  | .arr _, .str _ => .isFalse (fun h => JSON.noConfusion h)
  | .arr a, .arr b =>
    match jsonDecEqList a b with
    | .isTrue h => .isTrue (h ▸ rfl)
    | .isFalse h => .isFalse (fun hh => h (JSON.arr.inj hh))
  | .arr _, .obj _ => .isFalse (fun h => JSON.noConfusion h)
  | .obj _, .null => .isFalse (fun h => JSON.noConfusion h)
  | .obj _, .bool _ => .isFalse (fun h => JSON.noConfusion h)
  | .obj _, .num _ => .isFalse (fun h => JSON.noConfusion h)
  | .obj _, .str _ => .isFalse (fun h => JSON.noConfusion h)
  | .obj _, .arr _ => .isFalse (fun h => JSON.noConfusion h)
  | .obj a, .obj b =>
    match jsonDecEqKvs a b with
    | .isTrue h => .isTrue (h ▸ rfl)
    | .isFalse h => .isFalse (fun hh => h (JSON.obj.inj hh))

def jsonDecEqList : (a b : List JSON) → Decidable (a = b)
  | [], [] => .isTrue rfl
  | [], _ :: _ => .isFalse (fun h => List.noConfusion h)
  | _ :: _, [] => .isFalse (fun h => List.noConfusion h)
  | x :: xs, y :: ys =>
    match jsonDecEq x y, jsonDecEqList xs ys with
    | .isTrue h1, .isTrue h2 => .isTrue (by rw [h1, h2])
    | .isFalse h1, _ => .isFalse (by intro hh; injection hh with hh1 hh2; exact h1 hh1)
    | _, .isFalse h2 => .isFalse (by intro hh; injection hh with hh1 hh2; exact h2 hh2)

def jsonDecEqKvs : (a b : List (String × JSON)) → Decidable (a = b)
  | [], [] => .isTrue rfl
  | [], _ :: _ => .isFalse (fun h => List.noConfusion h)
  | _ :: _, [] => .isFalse (fun h => List.noConfusion h)
  | (k, v) :: xs, (k2, v2) :: ys =>
    match String.decEq k k2, jsonDecEq v v2, jsonDecEqKvs xs ys with
    | .isTrue h1, .isTrue h2, .isTrue h3 => .isTrue (by rw [h1, h2, h3])
    | .isFalse h1, _, _ =>
      .isFalse (by intro hh; injection hh with hp ht; injection hp with ha hb; exact h1 ha)
    | _, .isFalse h2, _ =>
      .isFalse (by intro hh; injection hh with hp ht; injection hp with ha hb; exact h2 hb)
    | _, _, .isFalse h3 => .isFalse (by intro hh; injection hh with hp ht; exact h3 ht)
end

instance : DecidableEq JSON := jsonDecEq

/-- Strict lexicographic order on strings as lists of code points (used only
to pick a canonical key order for object comparison). -/
def keyLtChars : List Char → List Char → Bool
  | [], [] => false
  | [], _ :: _ => true
  | _ :: _, [] => false
  | a :: as, b :: bs => decide (a.val < b.val) || (a == b && keyLtChars as bs)

def keyLt (a b : String) : Bool := keyLtChars a.data b.data

def insertKv (p : String × JSON) : List (String × JSON) → List (String × JSON)
  | [] => [p]
  | q :: rest => if keyLt q.1 p.1 then q :: insertKv p rest else p :: q :: rest

/-- Insertion sort of an association list by key, so that two objects with
the same key set and equal values get the same canonical form (Python
compares dicts by key set, not by insertion order). -/
def sortKvs : List (String × JSON) → List (String × JSON)
  | [] => []
  | p :: rest => insertKv p (sortKvs rest)

mutual
/-- Canonical form of a JSON value under Python `==`: `True`/`False` become
the numbers `1`/`0` (Python `bool` is a subclass of `int`, so `True == 1`
and `False == 0`), and object keys are sorted (Python dict comparison is
order-insensitive).  Two values are Python-equal iff their canonical forms
coincide. -/
def canon : JSON → JSON
  | .null => .null
  | .bool b => .num (if b then 1 else 0)
  | .num n => .num n
  | .str s => .str s
  | .arr elems => .arr (canonList elems)
  | .obj kvs => .obj (sortKvs (canonKvs kvs))

def canonList : List JSON → List JSON
  | [] => []
  | x :: xs => canon x :: canonList xs

def canonKvs : List (String × JSON) → List (String × JSON)
  | [] => []
  | (k, v) :: rest => (k, canon v) :: canonKvs rest
end

/-- Python value equality `==` on parsed JSON values. -/
def pyEq (a b : JSON) : Bool := decide (canon a = canon b)

/-- Python truthiness: `None`, `False`, `0`, `""`, `[]` and `{}` are falsy. -/
def isTruthy : JSON → Bool
  | .null => false
  | .bool b => b
  | .num n => decide (n ≠ 0)
  | .str s => !s.data.isEmpty
  | .arr elems => !elems.isEmpty
  | .obj kvs => !kvs.isEmpty

/-- Python `dict` lookup on an association list (keys are distinct in any
list that models a real dict, so first-match lookup is dict lookup). -/
def lookupJ (key : String) : List (String × JSON) → Option JSON
  | [] => none
  | (k, v) :: rest => if k = key then some v else lookupJ key rest

/-- Exceptions the two embedded functions can raise. -/
inductive PyErr where
  | keyError (k : String)
  | typeError : PyErr
  | attributeError : PyErr
  deriving Repr, DecidableEq

def matchesAt : List Char → List Char → Bool
  | _, [] => true
  | [], _ :: _ => false
  | c :: cs, d :: ds => c == d && matchesAt cs ds

def occursIn (pat : List Char) : List Char → Bool
  | [] => pat.isEmpty
  | c :: cs => matchesAt (c :: cs) pat || occursIn pat cs

/-- Substring test (Python `pat in hay` for strings). -/
def strContains (hay pat : String) : Bool := occursIn pat.data hay.data

/-- Python membership `x in container`: element test for lists, substring
test for strings, key test for dicts, `TypeError` otherwise. -/
def pyIn (x container : JSON) : Except PyErr Bool :=
  match container with
  | .arr elems => .ok (elems.any (fun e => pyEq x e))
  | .str s =>
    match x with
    | .str p => .ok (strContains s p)
    | _ => .error .typeError
  | .obj kvs => .ok (kvs.any (fun p => pyEq x (.str p.1)))
  | _ => .error .typeError

/-- The comparison loop of `extract_changes`: iterate the union of the key
sets of `before` and `after`, fetch each side with a `null` default
(Python `dict.get` returns `None` for a missing key), and emit a
`{"before": ..., "after": ...}` record for every key whose two values are
not Python-equal.  The Python code iterates a `set`, whose order is
unspecified; the embedding fixes one enumeration of the key union. -/
def attrDelta (bkvs akvs : List (String × JSON)) : List (String × JSON) :=
  ((bkvs.map Prod.fst ++ akvs.map Prod.fst).dedup).filterMap (fun key =>
    let before_value := (lookupJ key bkvs).getD .null
    let after_value := (lookupJ key akvs).getD .null
    if pyEq before_value after_value then none
    else some (key, JSON.obj [("before", before_value), ("after", after_value)]))

/-- Embedding of `extract_changes` (src/tfsec/parse.py, lines 189-215).

    if not resource_change: return None
    before = resource_change.get("before", {})
    after = resource_change.get("after", {})
    actions = resource_change.get("actions", [])
    if "no-op" in actions: return None
    changes = {}
    if before is not None and after is not None:
        <key-union comparison loop, see attrDelta>
    return changes if changes else None

`.get` on a non-dict raises `AttributeError`; so does `.keys()` when a
non-null `before`/`after` is not a dict.  The tail of the function
(everything from `changes = {}` on) is factored out as `diffPhase`:
when the guard `before is not None and after is not None` fails the
empty `changes` is returned as `None`; otherwise `.keys()` requires both
to be dicts and the comparison loop runs. -/
def diffPhase (before after : JSON) : Except PyErr (Option (List (String × JSON))) :=
  if before = .null ∨ after = .null then .ok none
  else
    match before, after with
    | .obj bkvs, .obj akvs =>
      let changes := attrDelta bkvs akvs
      .ok (if changes.isEmpty then none else some changes)
    | _, _ => .error .attributeError

def extract_changes (resource_change : JSON) : Except PyErr (Option (List (String × JSON))) :=
  if !(isTruthy resource_change) then .ok none
  else
    match resource_change with
    | .obj kvs =>
      let before := (lookupJ "before" kvs).getD (.obj [])
      let after := (lookupJ "after" kvs).getD (.obj [])
      let actions := (lookupJ "actions" kvs).getD (.arr [])
      match pyIn (.str "no-op") actions with
      | .error e => .error e
      | .ok true => .ok none
      | .ok false => diffPhase before after
    | _ => .error .attributeError

/-- Lookup in the output dictionary, whose keys are arbitrary values
compared with Python `==`. -/
def dictGet : List (JSON × JSON) → JSON → Option JSON
  | [], _ => none
  | (k0, v0) :: rest, k => if pyEq k0 k then some v0 else dictGet rest k

/-- Python `d[k] = v` on the output dictionary: replace the value of the
first `==`-equal key in place (keeping the stored key), else append. -/
def dictSet : List (JSON × JSON) → JSON → JSON → List (JSON × JSON)
  | [], k, v => [(k, v)]
  | (k0, v0) :: rest, k, v =>
    if pyEq k0 k then (k0, v) :: rest else (k0, v0) :: dictSet rest k v

/-- The record literal built for one emitted resource:

    {"type": resource.get("type", ""), "name": resource.get("name", ""),
     "action": resource["change"].get("actions", []), "changes": resource_changes}

`rkvs` is the resource entry, `ckvs` its `change` dict, `delta` the
non-empty delta mapping returned by `extract_changes`. -/
def mkRecord (rkvs ckvs delta : List (String × JSON)) : JSON :=
  .obj [("type", (lookupJ "type" rkvs).getD (.str "")),
        ("name", (lookupJ "name" rkvs).getD (.str "")),
        ("action", (lookupJ "actions" ckvs).getD (.arr [])),
        ("changes", .obj delta)]

/-- One iteration of the loop body of `create_resource_changes_dict`:

    resource_changes = extract_changes(resource.get("change", {}))
    if resource_changes:
        changes[resource["address"]] = { ... }

Python evaluates the record literal (which indexes `resource["change"]`)
before the assignment target `resource["address"]`, hence the error
order. -/
def processEntry (changes : List (JSON × JSON)) (resource : JSON) :
    Except PyErr (List (JSON × JSON)) :=
  match resource with
  | .obj rkvs =>
    match extract_changes ((lookupJ "change" rkvs).getD (.obj [])) with
    | .error e => .error e
    | .ok none => .ok changes
    | .ok (some delta) =>
      match lookupJ "change" rkvs with
      | none => .error (.keyError "change")
      | some (.obj ckvs) =>
        match lookupJ "address" rkvs with
        | none => .error (.keyError "address")
        | some addr => .ok (dictSet changes addr (mkRecord rkvs ckvs delta))
      | some _ => .error .attributeError
  | _ => .error .attributeError

def processList (changes : List (JSON × JSON)) : List JSON → Except PyErr (List (JSON × JSON))
  | [] => .ok changes
  | resource :: rest =>
    match processEntry changes resource with
    | .error e => .error e
    | .ok changes2 => processList changes2 rest

/-- Python `for` iteration: lists yield their elements, strings their
one-character substrings, dicts their keys; other values raise
`TypeError`. -/
def iterElems : JSON → Except PyErr (List JSON)
  | .arr xs => .ok xs
  | .str s => .ok (s.data.map (fun c => .str (String.mk [c])))
  | .obj kvs => .ok (kvs.map (fun p => .str p.1))
  | _ => .error .typeError

/-- The sequence iterated by the aggregator:
`json_plan.get("resource_changes", [])`. -/
def planEntries (json_plan : List (String × JSON)) : Except PyErr (List JSON) :=
  iterElems ((lookupJ "resource_changes" json_plan).getD (.arr []))

/-- Embedding of `create_resource_changes_dict` (src/tfsec/parse.py, lines
217-237): fold the loop body over the `resource_changes` sequence,
starting from the empty dict. -/
def create_resource_changes_dict (json_plan : List (String × JSON)) :
    Except PyErr (List (JSON × JSON)) :=
  match planEntries json_plan with
  | .error e => .error e
  | .ok entries => processList [] entries

/-- True iff processing entry `e` inserts (or overwrites) key `A` of the
output dictionary: `e` is a dict whose `change` yields a non-`None` delta
and whose `address` field is Python-equal to `A`. -/
def entryWrites (A : JSON) : JSON → Bool
  | .obj rkvs =>
    match extract_changes ((lookupJ "change" rkvs).getD (.obj [])) with
    | .ok (some _) =>
      match lookupJ "address" rkvs with
      | some a => pyEq a A
      | none => false
    | _ => false
  | _ => false

example :
    extract_changes (.obj [("before", .obj [("source_ranges", .arr [.str "10.0.0.0/8"]), ("name", .str "test-firewall")]),
                           ("after", .obj [("source_ranges", .arr [.str "0.0.0.0/0"]), ("name", .str "test-firewall")]),
                           ("actions", .arr [.str "update"])])
      = .ok (some [("source_ranges", .obj [("before", .arr [.str "10.0.0.0/8"]), ("after", .arr [.str "0.0.0.0/0"])])]) := rfl

example :
    extract_changes (.obj [("before", .obj [("name", .str "test")]),
                           ("after", .obj [("name", .str "test")]),
                           ("actions", .arr [.str "no-op"])]) = .ok none := rfl

example :
    create_resource_changes_dict
      [("resource_changes", .arr [.obj [("address", .str "test_resource"), ("type", .str "test_type"), ("name", .str "test"),
         ("change", .obj [("before", .obj [("x", .num 1)]), ("after", .obj [("x", .num 2)]), ("actions", .arr [.str "update"])])]])]
      = .ok [(.str "test_resource",
              .obj [("type", .str "test_type"), ("name", .str "test"), ("action", .arr [.str "update"]),
                    ("changes", .obj [("x", .obj [("before", .num 1), ("after", .num 2)])])])] := rfl

theorem pyEq_true_iff (a b : JSON) : pyEq a b = true ↔ canon a = canon b := by
  simp [pyEq]

theorem pyEq_false_iff (a b : JSON) : pyEq a b = false ↔ ¬ canon a = canon b := by
  simp [pyEq]

theorem pyEq_refl (a : JSON) : pyEq a a = true := by
  simp [pyEq]

theorem ne_of_pyEq_false {a b : JSON} (h : pyEq a b = false) : a ≠ b := by
  intro hab
  rw [hab, pyEq_refl] at h
  cases h

theorem lookupJ_isSome_iff (key : String) (l : List (String × JSON)) :
    (lookupJ key l).isSome ↔ key ∈ l.map Prod.fst := by
  induction l with
  | nil => simp [lookupJ]
  | cons p rest ih =>
    obtain ⟨k, v⟩ := p
    by_cases hk : k = key
    · subst hk; simp [lookupJ]
    · simp only [lookupJ, if_neg hk, List.map_cons, List.mem_cons, ih]
      constructor
      · exact fun h => Or.inr h
      · rintro (h | h)
        · exact absurd h.symm hk
        · exact h

theorem lookupJ_mem {key : String} {l : List (String × JSON)} {v : JSON}
    (h : lookupJ key l = some v) : (key, v) ∈ l := by
  induction l with
  | nil => cases h
  | cons p rest ih =>
    obtain ⟨k, v0⟩ := p
    by_cases hk : k = key
    · subst hk
      rw [lookupJ, if_pos rfl] at h
      obtain rfl := Option.some.inj h
      exact List.mem_cons_self _ _
    · rw [lookupJ, if_neg hk] at h
      exact List.mem_cons_of_mem _ (ih h)

theorem lookupJ_some_ne_nil {key : String} {l : List (String × JSON)} {v : JSON}
    (h : lookupJ key l = some v) : l ≠ [] := by
  intro hl
  subst hl
  cases h

theorem attrDelta_mem (bkvs akvs : List (String × JSON)) (key : String) (v : JSON) :
    (key, v) ∈ attrDelta bkvs akvs ↔
      ((key ∈ bkvs.map Prod.fst ∨ key ∈ akvs.map Prod.fst) ∧
        pyEq ((lookupJ key bkvs).getD .null) ((lookupJ key akvs).getD .null) = false ∧
        v = .obj [("before", (lookupJ key bkvs).getD .null),
                  ("after", (lookupJ key akvs).getD .null)]) := by
  rw [attrDelta, List.mem_filterMap]
  constructor
  · rintro ⟨k2, hk2, heq⟩
    by_cases hpy : pyEq ((lookupJ k2 bkvs).getD .null) ((lookupJ k2 akvs).getD .null) = true
    · rw [if_pos hpy] at heq
      cases heq
    · rw [if_neg hpy] at heq
      obtain ⟨rfl, rfl⟩ : k2 = key ∧ _ := by
        have := Option.some.inj heq
        exact ⟨congrArg Prod.fst this, congrArg Prod.snd this⟩
      rw [List.mem_dedup, List.mem_append] at hk2
      exact ⟨hk2, Bool.not_eq_true _ ▸ hpy, rfl⟩
  · rintro ⟨hmem, hpy, rfl⟩
    refine ⟨key, ?_, ?_⟩
    · rw [List.mem_dedup, List.mem_append]
      exact hmem
    · rw [if_neg (by rw [hpy]; exact Bool.false_ne_true)]

theorem diffPhase_ok_some {before after : JSON} {delta : List (String × JSON)}
    (h : diffPhase before after = .ok (some delta)) :
    ∃ bkvs akvs, before = .obj bkvs ∧ after = .obj akvs ∧
      delta = attrDelta bkvs akvs ∧ delta ≠ [] := by
  cases before <;> cases after <;> simp [diffPhase] at h
  rename_i bkvs akvs
  exact ⟨bkvs, akvs, rfl, rfl, h.2.symm, fun hd => h.1 (h.2.trans hd)⟩

theorem extract_ok_some_spec {c : JSON} {delta : List (String × JSON)}
    (h : extract_changes c = .ok (some delta)) :
    ∃ ckvs bkvs akvs, c = .obj ckvs ∧ ckvs ≠ [] ∧
      (lookupJ "before" ckvs).getD (.obj []) = .obj bkvs ∧
      (lookupJ "after" ckvs).getD (.obj []) = .obj akvs ∧
      delta = attrDelta bkvs akvs ∧ delta ≠ [] := by
  cases c with
  | null => simp [extract_changes, isTruthy] at h
  | bool b => cases b <;> simp [extract_changes, isTruthy] at h
  | num n =>
    rcases eq_or_ne n 0 with rfl | hn
    · simp [extract_changes, isTruthy] at h
    · simp [extract_changes, isTruthy, hn] at h
  | str s => by_cases hs : s.data.isEmpty <;> simp [extract_changes, isTruthy, hs] at h
  | arr xs => cases xs <;> simp [extract_changes, isTruthy] at h
  | obj kvs =>
    cases kvs with
    | nil => simp [extract_changes, isTruthy] at h
    | cons p rest =>
      simp only [extract_changes, isTruthy, List.isEmpty_cons, Bool.not_false,
        Bool.not_true, Bool.false_eq_true, if_false] at h
      cases hin : pyIn (.str "no-op") ((lookupJ "actions" (p :: rest)).getD (.arr [])) with
      | error e2 => simp [hin] at h
      | ok b =>
        cases b
        · simp only [hin] at h
          obtain ⟨bkvs, akvs, hb, ha, rfl, hne⟩ := diffPhase_ok_some h
          exact ⟨p :: rest, bkvs, akvs, rfl, by simp, hb, ha, rfl, hne⟩
        · simp [hin] at h

theorem extract_noop {ckvs : List (String × JSON)} {acts : List JSON}
    (hact : lookupJ "actions" ckvs = some (.arr acts))
    (hnoop : acts.any (fun e => pyEq (.str "no-op") e) = true) :
    extract_changes (.obj ckvs) = .ok none := by
  have hne : ckvs ≠ [] := lookupJ_some_ne_nil hact
  have hemp : ckvs.isEmpty = false := by simp [List.isEmpty_iff, hne]
  rw [extract_changes]
  simp only [isTruthy, hemp, Bool.not_false, Bool.not_true, Bool.false_eq_true, if_false]
  simp [hact, pyIn, hnoop]

theorem extract_null_side {ckvs : List (String × JSON)} {acts : List JSON}
    (hact : lookupJ "actions" ckvs = some (.arr acts))
    (hnoop : acts.any (fun e => pyEq (.str "no-op") e) = false)
    (hnull : (lookupJ "before" ckvs).getD (.obj []) = .null ∨
             (lookupJ "after" ckvs).getD (.obj []) = .null) :
    extract_changes (.obj ckvs) = .ok none := by
  have hne : ckvs ≠ [] := lookupJ_some_ne_nil hact
  have hemp : ckvs.isEmpty = false := by simp [List.isEmpty_iff, hne]
  rw [extract_changes]
  simp only [isTruthy, hemp, Bool.not_false, Bool.not_true, Bool.false_eq_true, if_false]
  simp only [hact, Option.getD_some, pyIn, hnoop]
  rcases hnull with h1 | h1 <;> rw [h1] <;> simp [diffPhase]

theorem dictGet_dictSet (d : List (JSON × JSON)) (k v A : JSON) :
    dictGet (dictSet d k v) A = if canon k = canon A then some v else dictGet d A := by
  induction d with
  | nil =>
    by_cases h : canon k = canon A <;> simp [dictSet, dictGet, pyEq, h]
  | cons p rest ih =>
    obtain ⟨k0, v0⟩ := p
    by_cases h0 : canon k0 = canon k
    · by_cases hA : canon k0 = canon A
      · simp [dictSet, dictGet, pyEq, h0, hA, h0.symm.trans hA]
      · have hkA : ¬ canon k = canon A := fun hc => hA (h0.trans hc)
        simp [dictSet, dictGet, pyEq, h0, hA, hkA]
    · by_cases hA : canon k0 = canon A
      · have hkA : ¬ canon k = canon A := fun hc => h0 (hA.trans hc.symm)
        have hAk : ¬ canon A = canon k := fun hc => hkA hc.symm
        simp [dictSet, dictGet, pyEq, h0, hA, hkA, hAk]
      · simp [dictSet, dictGet, pyEq, h0, hA, ih]

theorem processEntry_ok_spec (d : List (JSON × JSON)) (e : JSON) (d2 : List (JSON × JSON))
    (h : processEntry d e = .ok d2) :
    (d2 = d ∧ ∀ B, entryWrites B e = false) ∨
    (∃ rkvs ckvs delta a, e = .obj rkvs ∧
      lookupJ "change" rkvs = some (.obj ckvs) ∧
      extract_changes (.obj ckvs) = .ok (some delta) ∧ delta ≠ [] ∧
      lookupJ "address" rkvs = some a ∧
      d2 = dictSet d a (mkRecord rkvs ckvs delta) ∧
      ∀ B, entryWrites B e = pyEq a B) := by
  cases e with
  | obj rkvs =>
    rw [processEntry] at h
    cases hex : extract_changes ((lookupJ "change" rkvs).getD (.obj [])) with
    | error err => simp [hex] at h
    | ok o =>
      cases o with
      | none =>
        simp only [hex] at h
        obtain rfl := Except.ok.inj h
        exact Or.inl ⟨rfl, fun B => by simp [entryWrites, hex]⟩
      | some delta =>
        simp only [hex] at h
        cases hch : lookupJ "change" rkvs with
        | none => simp [hch] at h
        | some c =>
          have hobj : ∃ ckvs, c = .obj ckvs := by
            obtain ⟨ckvs, _, _, hc, _⟩ := extract_ok_some_spec (by rwa [hch, Option.getD_some] at hex)
            exact ⟨ckvs, hc⟩
          obtain ⟨ckvs, rfl⟩ := hobj
          simp only [hch] at h
          cases haddr : lookupJ "address" rkvs with
          | none => simp [haddr] at h
          | some a =>
            simp only [haddr] at h
            obtain rfl := (Except.ok.inj h).symm
            have hex2 : extract_changes (.obj ckvs) = .ok (some delta) := by
              rwa [hch, Option.getD_some] at hex
            obtain ⟨_, _, _, _, _, _, _, _, hne⟩ := extract_ok_some_spec hex2
            refine Or.inr ⟨rkvs, ckvs, delta, a, rfl, hch, hex2, hne, haddr, rfl, fun B => ?_⟩
            simp [entryWrites, hex, haddr]
  | null => simp [processEntry] at h
  | bool b => simp [processEntry] at h
  | num n => simp [processEntry] at h
  | str s => simp [processEntry] at h
  | arr xs => simp [processEntry] at h

theorem processList_append (xs ys : List JSON) (d : List (JSON × JSON)) :
    processList d (xs ++ ys) =
      match processList d xs with
      | .error e => .error e
      | .ok d2 => processList d2 ys := by
  induction xs generalizing d with
  | nil => simp [processList]
  | cons x rest ih =>
    simp only [List.cons_append, processList]
    cases hpe : processEntry d x with
    | error e => rfl
    | ok d2 => exact ih d2

theorem processList_isSome_iff (A : JSON) (es : List JSON) :
    ∀ (d out : List (JSON × JSON)), processList d es = .ok out →
      ((dictGet out A).isSome ↔
        ((dictGet d A).isSome ∨ ∃ e ∈ es, entryWrites A e = true)) := by
  induction es with
  | nil =>
    intro d out h
    simp only [processList] at h
    obtain rfl := Except.ok.inj h
    simp
  | cons e rest ih =>
    intro d out h
    simp only [processList] at h
    cases hpe : processEntry d e with
    | error err => simp [hpe] at h
    | ok d2 =>
      simp only [hpe] at h
      rcases processEntry_ok_spec d e d2 hpe with ⟨hd, hw⟩ |
        ⟨rkvs, ckvs, delta, a, rfl, hch, hex, hne, haddr, rfl, hw⟩
      · subst hd
        rw [ih _ out h]
        simp [hw]
      · rw [ih _ out h, dictGet_dictSet]
        by_cases hc : canon a = canon A
        · simp [hc, hw, pyEq]
        · simp [hc, hw, pyEq]

/-- Shape of every value stored in the output dictionary: the record built
for some entry, with a non-empty delta. -/
def isEmittedRecord (r : JSON) : Prop :=
  ∃ rkvs ckvs delta, delta ≠ [] ∧ r = mkRecord rkvs ckvs delta

theorem processList_good (es : List JSON) :
    ∀ (d out : List (JSON × JSON)), processList d es = .ok out →
      (∀ A r, dictGet d A = some r → isEmittedRecord r) →
      (∀ A r, dictGet out A = some r → isEmittedRecord r) := by
  induction es with
  | nil =>
    intro d out h hbase
    simp only [processList] at h
    obtain rfl := Except.ok.inj h
    exact hbase
  | cons e rest ih =>
    intro d out h hbase
    simp only [processList] at h
    cases hpe : processEntry d e with
    | error err => simp [hpe] at h
    | ok d2 =>
      simp only [hpe] at h
      rcases processEntry_ok_spec d e d2 hpe with ⟨hd, _⟩ |
        ⟨rkvs, ckvs, delta, a, rfl, hch, hex, hne, haddr, rfl, _⟩
      · subst hd
        exact ih _ out h hbase
      · refine ih _ out h ?_
        intro A r hr
        rw [dictGet_dictSet] at hr
        by_cases hc : canon a = canon A
        · rw [if_pos hc] at hr
          obtain rfl := (Option.some.inj hr).symm
          exact ⟨rkvs, ckvs, delta, hne, rfl⟩
        · rw [if_neg hc] at hr
          exact hbase A r hr

theorem processList_untouched (A : JSON) (es : List JSON) :
    ∀ (d out : List (JSON × JSON)), processList d es = .ok out →
      (∀ e ∈ es, entryWrites A e = false) →
      dictGet out A = dictGet d A := by
  induction es with
  | nil =>
    intro d out h _
    simp only [processList] at h
    obtain rfl := Except.ok.inj h
    rfl
  | cons e rest ih =>
    intro d out h hno
    simp only [processList] at h
    cases hpe : processEntry d e with
    | error err => simp [hpe] at h
    | ok d2 =>
      simp only [hpe] at h
      rcases processEntry_ok_spec d e d2 hpe with ⟨hd, _⟩ |
        ⟨rkvs, ckvs, delta, a, rfl, hch, hex, hne, haddr, rfl, hw⟩
      · subst hd
        exact ih _ out h (fun x hx => hno x (List.mem_cons_of_mem _ hx))
      · have hfalse : pyEq a A = false := by
          rw [← hw A]
          exact hno _ (List.mem_cons_self _ _)
        have hc : ¬ canon a = canon A := by
          rw [pyEq_false_iff] at hfalse
          exact hfalse
        rw [ih _ out h (fun x hx => hno x (List.mem_cons_of_mem _ hx)), dictGet_dictSet,
          if_neg hc]

/-- C1, counterexample: the claim says an entry missing the `address` field
never raises; but on a plan with one entry that has a non-empty delta and
no `address`, `create_resource_changes_dict` raises `KeyError("address")`
(the code indexes `resource["address"]` directly). -/
theorem c1_missing_address_counterexample :
    create_resource_changes_dict
      [("resource_changes", .arr [.obj [("change", .obj
          [("before", .obj []),
           ("after", .obj [("x", .num 1)]),
           ("actions", .arr [.str "create"])])]])]
      = .error (.keyError "address") := rfl

/-- C1 (amended): missing `type`, `name` or `actions` sub-fields are
tolerated via empty defaults (empty string / empty sequence), and a missing
`change` sub-field leads to omission of the entry, never to an error; but
an entry that lacks `address` while its delta mapping is non-empty raises
`KeyError("address")`. -/
theorem c1_default_substitution (d : List (JSON × JSON))
    (rkvs ckvs delta : List (String × JSON))
    (hch : lookupJ "change" rkvs = some (.obj ckvs))
    (hex : extract_changes (.obj ckvs) = .ok (some delta)) :
    (∀ a, lookupJ "address" rkvs = some a →
        processEntry d (.obj rkvs) = .ok (dictSet d a (mkRecord rkvs ckvs delta)))
    ∧ (lookupJ "address" rkvs = none →
        processEntry d (.obj rkvs) = .error (.keyError "address"))
    ∧ (∀ rkvs2 : List (String × JSON), lookupJ "change" rkvs2 = none →
        processEntry d (.obj rkvs2) = .ok d) := by
  have hnone : extract_changes (.obj ([] : List (String × JSON))) = .ok none := rfl
  refine ⟨fun a ha => ?_, fun ha => ?_, fun rkvs2 h2 => ?_⟩
  · rw [processEntry]
    simp [hch, hex, ha]
  · rw [processEntry]
    simp [hch, hex, ha]
  · rw [processEntry]
    simp [h2, hnone]

/-- C2 (confirmed): when the action list does not contain "no-op" and
exactly one of `before`/`after` is explicitly null while the other is a
non-empty mapping, `extract_changes` returns no delta (`None`), so the
entry is skipped by the aggregation loop (the accumulated dictionary is
unchanged). -/
theorem c2_null_side_omitted (d : List (JSON × JSON))
    (rkvs ckvs : List (String × JSON)) (acts : List JSON)
    (hch : lookupJ "change" rkvs = some (.obj ckvs))
    (hact : lookupJ "actions" ckvs = some (.arr acts))
    (hnoop : acts.any (fun e => pyEq (.str "no-op") e) = false)
    (hba : (lookupJ "before" ckvs = some .null ∧
             ∃ akvs, akvs ≠ [] ∧ lookupJ "after" ckvs = some (.obj akvs)) ∨
           (lookupJ "after" ckvs = some .null ∧
             ∃ bkvs, bkvs ≠ [] ∧ lookupJ "before" ckvs = some (.obj bkvs))) :
    extract_changes (.obj ckvs) = .ok none ∧ processEntry d (.obj rkvs) = .ok d := by
  have hex : extract_changes (.obj ckvs) = .ok none := by
    apply extract_null_side hact hnoop
    rcases hba with ⟨h1, _⟩ | ⟨h1, _⟩
    · left
      rw [h1]
      rfl
    · right
      rw [h1]
      rfl
  refine ⟨hex, ?_⟩
  rw [processEntry]
  simp [hch, hex]

/-- C3, counterexample: the claim says any type mismatch (for example a
boolean versus a number) counts as a difference; but Python `bool` is a
subclass of `int`, so `True == 1` and the comparator reports no change for
a `before` value of `true` against an `after` value of `1`. -/
theorem c3_bool_num_counterexample :
    extract_changes (.obj [("before", .obj [("enabled", .bool true)]),
                           ("after", .obj [("enabled", .num 1)]),
                           ("actions", .arr [.str "update"])]) = .ok none
    ∧ JSON.bool true ≠ JSON.num 1 :=
  ⟨rfl, by decide⟩

/-- C3 (amended): for every key in the union of before/after keys the
comparator decides difference by deep structural equality — mappings
compare recursively by key set and values, sequences element-wise in
order, scalars exactly (including null), and a type mismatch (e.g. null
versus a record) is a difference — except that Python equality identifies
booleans with numbers (`true` equals `1` and `false` equals `0`): a key is
emitted iff it occurs on either side and the two fetched values (null when
absent) have distinct canonical forms. -/
theorem c3_deep_comparison (bkvs akvs : List (String × JSON)) (key : String) :
    (lookupJ key (attrDelta bkvs akvs)).isSome ↔
      ((key ∈ bkvs.map Prod.fst ∨ key ∈ akvs.map Prod.fst) ∧
        canon ((lookupJ key bkvs).getD .null) ≠ canon ((lookupJ key akvs).getD .null)) := by
  rw [lookupJ_isSome_iff]
  constructor
  · intro hk
    rw [List.mem_map] at hk
    obtain ⟨⟨k2, v⟩, hmem, rfl⟩ := hk
    rw [attrDelta_mem] at hmem
    exact ⟨hmem.1, (pyEq_false_iff _ _).mp hmem.2.1⟩
  · rintro ⟨hmem, hne⟩
    have hv : (key, JSON.obj [("before", (lookupJ key bkvs).getD .null),
        ("after", (lookupJ key akvs).getD .null)]) ∈ attrDelta bkvs akvs :=
      (attrDelta_mem bkvs akvs key _).mpr ⟨hmem, (pyEq_false_iff _ _).mpr hne, rfl⟩
    rw [List.mem_map]
    exact ⟨_, hv, rfl⟩

/-- C5 (confirmed): whenever the action list of a change record contains
"no-op", `extract_changes` skips the diff computation and returns no delta,
and the aggregation loop leaves the output dictionary unchanged, whatever
the `before`/`after` records contain. -/
theorem c5_noop_omitted (d : List (JSON × JSON))
    (rkvs ckvs : List (String × JSON)) (acts : List JSON)
    (hch : lookupJ "change" rkvs = some (.obj ckvs))
    (hact : lookupJ "actions" ckvs = some (.arr acts))
    (hnoop : acts.any (fun e => pyEq (.str "no-op") e) = true) :
    extract_changes (.obj ckvs) = .ok none ∧ processEntry d (.obj rkvs) = .ok d := by
  have hex : extract_changes (.obj ckvs) = .ok none := extract_noop hact hnoop
  refine ⟨hex, ?_⟩
  rw [processEntry]
  simp [hch, hex]

/-- C6 (confirmed): every key emitted in a delta mapping belongs to the
union of the before/after key sets, its two values (null substituted for an
absent key) are unequal — both under Python equality and structurally —
and the emitted record carries the full before and after values verbatim
as `{"before": ..., "after": ...}`. -/
theorem c6_emitted_key_union (bkvs akvs : List (String × JSON)) (key : String) (v : JSON)
    (h : lookupJ key (attrDelta bkvs akvs) = some v) :
    (key ∈ bkvs.map Prod.fst ∨ key ∈ akvs.map Prod.fst)
    ∧ pyEq ((lookupJ key bkvs).getD .null) ((lookupJ key akvs).getD .null) = false
    ∧ (lookupJ key bkvs).getD .null ≠ (lookupJ key akvs).getD .null
    ∧ v = .obj [("before", (lookupJ key bkvs).getD .null),
                ("after", (lookupJ key akvs).getD .null)] := by
  have hmem := lookupJ_mem h
  rw [attrDelta_mem] at hmem
  exact ⟨hmem.1, hmem.2.1, ne_of_pyEq_false hmem.2.1, hmem.2.2⟩

/-- C7 (confirmed): for a change record with empty (or absent) `before`,
`after = {"source_ranges": ["0.0.0.0/0"]}` and `actions = ["create"]`,
`extract_changes` returns exactly the delta
`{"source_ranges": {"before": null, "after": ["0.0.0.0/0"]}}`. -/
theorem c7_pure_addition :
    extract_changes (.obj [("before", .obj []),
                           ("after", .obj [("source_ranges", .arr [.str "0.0.0.0/0"])]),
                           ("actions", .arr [.str "create"])])
      = .ok (some [("source_ranges",
          .obj [("before", .null), ("after", .arr [.str "0.0.0.0/0"])])])
    ∧ extract_changes (.obj [("after", .obj [("source_ranges", .arr [.str "0.0.0.0/0"])]),
                             ("actions", .arr [.str "create"])])
      = .ok (some [("source_ranges",
          .obj [("before", .null), ("after", .arr [.str "0.0.0.0/0"])])]) :=
  ⟨rfl, rfl⟩

/-- C8 (confirmed): a plan document whose `resource_changes` field is
absent or the empty sequence yields the empty ChangeSet, not an error. -/
theorem c8_empty_plan (plan : List (String × JSON))
    (h : lookupJ "resource_changes" plan = none ∨
         lookupJ "resource_changes" plan = some (.arr [])) :
    create_resource_changes_dict plan = .ok [] := by
  rcases h with h | h <;>
    simp [create_resource_changes_dict, planEntries, h, iterElems, processList]

/-- C9 (confirmed): the aggregator is a pure function of the plan document:
two invocations on the same document content yield identical ChangeSet
content (the embedding is stateless by construction, so no call can mutate
the input or any shared state). -/
theorem c9_deterministic (p1 p2 : List (String × JSON)) (h : p1 = p2) :
    create_resource_changes_dict p1 = create_resource_changes_dict p2 := by
  rw [h]

/-- C4 (confirmed): on a successful run, an address appears as a key of the
output ChangeSet iff some entry of the `resource_changes` sequence carries
that address and a non-empty computed delta (`entryWrites`), and every
record stored in the output has a non-empty `changes` mapping. -/
theorem c4_omission_iff (plan : List (String × JSON)) (entries : List JSON)
    (out : List (JSON × JSON)) (A : JSON)
    (hent : planEntries plan = .ok entries)
    (hok : create_resource_changes_dict plan = .ok out) :
    ((dictGet out A).isSome ↔ ∃ e ∈ entries, entryWrites A e = true)
    ∧ (∀ r, dictGet out A = some r →
        ∃ fields delta, delta ≠ [] ∧ r = .obj fields ∧
          lookupJ "changes" fields = some (.obj delta)) := by
  have hpl : processList [] entries = .ok out := by
    rw [create_resource_changes_dict, hent] at hok
    exact hok
  constructor
  · have hiff := processList_isSome_iff A entries [] out hpl
    simpa [dictGet] using hiff
  · intro r hr
    have hgood := processList_good entries [] out hpl
      (fun A0 r0 h0 => by simp [dictGet] at h0) A r hr
    obtain ⟨rkvs, ckvs, delta, hne, rfl⟩ := hgood
    exact ⟨_, delta, hne, rfl, rfl⟩

/-- C10 (confirmed): when several non-omitted entries share an address, the
output maps that address to the record of the entry occurring last in the
input sequence: given an earlier colliding entry in `l1` and no later entry
in `l2` writing the same address, the output holds the record built from
the distinguished entry, and the collision itself raises no error (the run
is assumed to succeed; collisions only overwrite). -/
theorem c10_last_write_wins (plan : List (String × JSON)) (entries l1 l2 : List JSON)
    (e0 : JSON) (rkvs ckvs delta : List (String × JSON)) (a A : JSON)
    (out : List (JSON × JSON))
    (hent : planEntries plan = .ok entries)
    (hsplit : entries = l1 ++ JSON.obj rkvs :: l2)
    (he0 : e0 ∈ l1) (hw0 : entryWrites A e0 = true)
    (hch : lookupJ "change" rkvs = some (.obj ckvs))
    (hex : extract_changes (.obj ckvs) = .ok (some delta))
    (haddr : lookupJ "address" rkvs = some a)
    (hA : pyEq a A = true)
    (hlater : ∀ e ∈ l2, entryWrites A e = false)
    (hok : create_resource_changes_dict plan = .ok out) :
    dictGet out A = some (mkRecord rkvs ckvs delta) := by
  have hpl : processList [] (l1 ++ JSON.obj rkvs :: l2) = .ok out := by
    rw [create_resource_changes_dict, hent] at hok
    rwa [hsplit] at hok
  rw [processList_append] at hpl
  cases h1 : processList [] l1 with
  | error err => simp [h1] at hpl
  | ok d1 =>
    simp only [h1] at hpl
    have hpe : processEntry d1 (.obj rkvs) = .ok (dictSet d1 a (mkRecord rkvs ckvs delta)) := by
      rw [processEntry]
      simp [hch, hex, haddr]
    simp only [processList, hpe] at hpl
    rw [processList_untouched A l2 _ out hpl hlater, dictGet_dictSet,
      if_pos ((pyEq_true_iff a A).mp hA)]

/-- C1 witness: a concrete entry carrying only `address` and `change`
(no `type`, `name` or `actions` anywhere): defaults are substituted, and
removing `address` is what raises. -/
theorem c1_default_substitution_witness :
    (∀ a, lookupJ "address"
        [("address", .str "res1"),
         ("change", .obj [("before", .obj []), ("after", .obj [("x", .num 1)])])] = some a →
      processEntry []
        (.obj [("address", .str "res1"),
               ("change", .obj [("before", .obj []), ("after", .obj [("x", .num 1)])])])
        = .ok (dictSet [] a
            (mkRecord
              [("address", .str "res1"),
               ("change", .obj [("before", .obj []), ("after", .obj [("x", .num 1)])])]
              [("before", .obj []), ("after", .obj [("x", .num 1)])]
              [("x", .obj [("before", .null), ("after", .num 1)])])))
    ∧ (lookupJ "address"
        [("address", .str "res1"),
         ("change", .obj [("before", .obj []), ("after", .obj [("x", .num 1)])])] = none →
      processEntry []
        (.obj [("address", .str "res1"),
               ("change", .obj [("before", .obj []), ("after", .obj [("x", .num 1)])])])
        = .error (.keyError "address"))
    ∧ (∀ rkvs2 : List (String × JSON), lookupJ "change" rkvs2 = none →
        processEntry [] (.obj rkvs2) = .ok []) :=
  c1_default_substitution []
    [("address", .str "res1"),
     ("change", .obj [("before", .obj []), ("after", .obj [("x", .num 1)])])]
    [("before", .obj []), ("after", .obj [("x", .num 1)])]
    [("x", .obj [("before", .null), ("after", .num 1)])]
    rfl rfl

/-- C2 witness: `before` explicitly null, `after` a non-empty mapping,
actions `["delete"]`: no delta, entry skipped. -/
theorem c2_null_side_omitted_witness :
    extract_changes (.obj [("before", .null), ("after", .obj [("x", .num 1)]),
                           ("actions", .arr [.str "delete"])]) = .ok none
    ∧ processEntry []
        (.obj [("address", .str "r"),
               ("change", .obj [("before", .null), ("after", .obj [("x", .num 1)]),
                                ("actions", .arr [.str "delete"])])]) = .ok [] :=
  c2_null_side_omitted []
    [("address", .str "r"),
     ("change", .obj [("before", .null), ("after", .obj [("x", .num 1)]),
                      ("actions", .arr [.str "delete"])])]
    [("before", .null), ("after", .obj [("x", .num 1)]), ("actions", .arr [.str "delete"])]
    [.str "delete"] rfl rfl rfl
    (Or.inl ⟨rfl, ⟨[("x", .num 1)], by simp, rfl⟩⟩)

/-- C4 witness: a one-entry plan; the address "web" is present in the
output and its record has a non-empty `changes` mapping. -/
theorem c4_omission_iff_witness :
    ((dictGet [(.str "web",
        .obj [("type", .str "fw"), ("name", .str "w"), ("action", .arr [.str "update"]),
              ("changes", .obj [("p", .obj [("before", .num 80), ("after", .num 443)])])])]
        (.str "web")).isSome ↔
      ∃ e ∈ [JSON.obj [("address", .str "web"), ("type", .str "fw"), ("name", .str "w"),
              ("change", .obj [("before", .obj [("p", .num 80)]),
                               ("after", .obj [("p", .num 443)]),
                               ("actions", .arr [.str "update"])])]],
        entryWrites (.str "web") e = true)
    ∧ (∀ r, dictGet [(.str "web",
        .obj [("type", .str "fw"), ("name", .str "w"), ("action", .arr [.str "update"]),
              ("changes", .obj [("p", .obj [("before", .num 80), ("after", .num 443)])])])]
        (.str "web") = some r →
        ∃ fields delta, delta ≠ [] ∧ r = .obj fields ∧
          lookupJ "changes" fields = some (.obj delta)) :=
  c4_omission_iff
    [("resource_changes", .arr [.obj [("address", .str "web"), ("type", .str "fw"),
       ("name", .str "w"),
       ("change", .obj [("before", .obj [("p", .num 80)]),
                        ("after", .obj [("p", .num 443)]),
                        ("actions", .arr [.str "update"])])]])]
    [JSON.obj [("address", .str "web"), ("type", .str "fw"), ("name", .str "w"),
       ("change", .obj [("before", .obj [("p", .num 80)]),
                        ("after", .obj [("p", .num 443)]),
                        ("actions", .arr [.str "update"])])]]
    [(.str "web",
        .obj [("type", .str "fw"), ("name", .str "w"), ("action", .arr [.str "update"]),
              ("changes", .obj [("p", .obj [("before", .num 80), ("after", .num 443)])])])]
    (.str "web") rfl rfl

/-- C5 witness: declared no-op with visibly drifted values: omitted. -/
theorem c5_noop_omitted_witness :
    extract_changes (.obj [("before", .obj [("name", .str "a")]),
                           ("after", .obj [("name", .str "b")]),
                           ("actions", .arr [.str "no-op"])]) = .ok none
    ∧ processEntry []
        (.obj [("address", .str "r"),
               ("change", .obj [("before", .obj [("name", .str "a")]),
                                ("after", .obj [("name", .str "b")]),
                                ("actions", .arr [.str "no-op"])])]) = .ok [] :=
  c5_noop_omitted []
    [("address", .str "r"),
     ("change", .obj [("before", .obj [("name", .str "a")]),
                      ("after", .obj [("name", .str "b")]),
                      ("actions", .arr [.str "no-op"])])]
    [("before", .obj [("name", .str "a")]), ("after", .obj [("name", .str "b")]),
     ("actions", .arr [.str "no-op"])]
    [.str "no-op"] rfl rfl rfl

/-- C6 witness: a nested tag mapping gaining a key is reported once, at the
top-level attribute "tags", with both sub-records carried whole. -/
theorem c6_emitted_key_union_witness :
    ("tags" ∈ ([("tags", JSON.obj [("a", .str "1")])]).map Prod.fst ∨
      "tags" ∈ ([("tags", JSON.obj [("a", .str "1"), ("b", .str "2")])]).map Prod.fst)
    ∧ pyEq ((lookupJ "tags" [("tags", JSON.obj [("a", .str "1")])]).getD .null)
        ((lookupJ "tags" [("tags", JSON.obj [("a", .str "1"), ("b", .str "2")])]).getD .null)
        = false
    ∧ (lookupJ "tags" [("tags", JSON.obj [("a", .str "1")])]).getD .null ≠
        (lookupJ "tags" [("tags", JSON.obj [("a", .str "1"), ("b", .str "2")])]).getD .null
    ∧ (JSON.obj [("before", .obj [("a", .str "1")]),
                 ("after", .obj [("a", .str "1"), ("b", .str "2")])])
      = .obj [("before", (lookupJ "tags" [("tags", JSON.obj [("a", .str "1")])]).getD .null),
              ("after", (lookupJ "tags"
                  [("tags", JSON.obj [("a", .str "1"), ("b", .str "2")])]).getD .null)] :=
  c6_emitted_key_union [("tags", JSON.obj [("a", .str "1")])]
    [("tags", JSON.obj [("a", .str "1"), ("b", .str "2")])] "tags"
    (.obj [("before", .obj [("a", .str "1")]),
           ("after", .obj [("a", .str "1"), ("b", .str "2")])])
    rfl

/-- C8 witness: a plan without any `resource_changes` field. -/
theorem c8_empty_plan_witness :
    create_resource_changes_dict [("format_version", .str "1.0")] = .ok [] :=
  c8_empty_plan [("format_version", .str "1.0")] (Or.inl rfl)

/-- C9 witness: the aggregator applied twice to one concrete document. -/
theorem c9_deterministic_witness :
    create_resource_changes_dict [("resource_changes", .arr [])]
      = create_resource_changes_dict [("resource_changes", .arr [])] :=
  c9_deterministic [("resource_changes", .arr [])] [("resource_changes", .arr [])] rfl

/-- C10 witness: two entries with address "dup"; the output holds the
record of the second (last) one. -/
theorem c10_last_write_wins_witness :
    dictGet [(.str "dup",
        .obj [("type", .str "t2"), ("name", .str ""), ("action", .arr [.str "update"]),
              ("changes", .obj [("v", .obj [("before", .num 2), ("after", .num 3)])])])]
      (.str "dup")
      = some (mkRecord
          [("address", .str "dup"), ("type", .str "t2"),
           ("change", .obj [("before", .obj [("v", .num 2)]),
                            ("after", .obj [("v", .num 3)]),
                            ("actions", .arr [.str "update"])])]
          [("before", .obj [("v", .num 2)]), ("after", .obj [("v", .num 3)]),
           ("actions", .arr [.str "update"])]
          [("v", .obj [("before", .num 2), ("after", .num 3)])]) :=
  c10_last_write_wins
    [("resource_changes", .arr
      [.obj [("address", .str "dup"),
             ("change", .obj [("before", .obj [("v", .num 1)]),
                              ("after", .obj [("v", .num 2)]),
                              ("actions", .arr [.str "update"])])],
       .obj [("address", .str "dup"), ("type", .str "t2"),
             ("change", .obj [("before", .obj [("v", .num 2)]),
                              ("after", .obj [("v", .num 3)]),
                              ("actions", .arr [.str "update"])])]])]
    [.obj [("address", .str "dup"),
           ("change", .obj [("before", .obj [("v", .num 1)]),
                            ("after", .obj [("v", .num 2)]),
                            ("actions", .arr [.str "update"])])],
     .obj [("address", .str "dup"), ("type", .str "t2"),
           ("change", .obj [("before", .obj [("v", .num 2)]),
                            ("after", .obj [("v", .num 3)]),
                            ("actions", .arr [.str "update"])])]]
    [.obj [("address", .str "dup"),
           ("change", .obj [("before", .obj [("v", .num 1)]),
                            ("after", .obj [("v", .num 2)]),
                            ("actions", .arr [.str "update"])])]]
    []
    (.obj [("address", .str "dup"),
           ("change", .obj [("before", .obj [("v", .num 1)]),
                            ("after", .obj [("v", .num 2)]),
                            ("actions", .arr [.str "update"])])])
    [("address", .str "dup"), ("type", .str "t2"),
     ("change", .obj [("before", .obj [("v", .num 2)]),
                      ("after", .obj [("v", .num 3)]),
                      ("actions", .arr [.str "update"])])]
    [("before", .obj [("v", .num 2)]), ("after", .obj [("v", .num 3)]),
     ("actions", .arr [.str "update"])]
    [("v", .obj [("before", .num 2), ("after", .num 3)])]
    (.str "dup") (.str "dup")
    [(.str "dup",
        .obj [("type", .str "t2"), ("name", .str ""), ("action", .arr [.str "update"]),
              ("changes", .obj [("v", .obj [("before", .num 2), ("after", .num 3)])])])]
    rfl rfl (by simp) rfl rfl rfl rfl rfl (by simp) rfl
